import Mathlib

/-!
Verification development for the real-time chat core of the AnnA social
site (FastAPI + WebSocket + Redis).  The definitions below are a shallow
embedding of `src/ws/chat.py`, `src/ws/router.py`, `src/ws/presence.py`
and the persistence model `src/messages/models.py`.  Connection handles,
user ids, conversation ids and message ids are modelled as `Nat`; the
Python `dict[str, set[WebSocket]]` registry is an association list whose
values are duplicate-free lists; Redis databases are association lists
from string keys to values with an optional absolute expiry instant.
-/

namespace AnnA

/-! ### ConversationRegistry (chat.py lines 20-34, 63-65, 94-99)

`connections: dict[str, set[WebSocket]] = {}` maps a conversation id to
the set of live sockets subscribed to it. -/

/-- The registry `connections`: conversation id ↦ list of connection handles. -/
abbrev Registry := List (Nat × List Nat)

/-- Dictionary lookup `connections[conversation_id]` (first matching key). -/
def lookupConv : Registry → Nat → Option (List Nat)
  | [], _ => none
  | (k, v) :: rest, cid => if k = cid then some v else lookupConv rest cid

/-- Replace the value stored under `cid` (in-place dict assignment). -/
def updateConv : Registry → Nat → List Nat → Registry
  | [], _, _ => []
  | (k, v) :: rest, cid, l =>
      if k = cid then (k, l) :: updateConv rest cid l
      else (k, v) :: updateConv rest cid l

/-- Python `del connections[cid]` — remove the key entirely. -/
def removeConv (reg : Registry) (cid : Nat) : Registry :=
  reg.filter (fun p => p.1 ≠ cid)

/-- chat.py lines 63-65: create the set if absent, then `add(websocket)`
(set semantics: adding an element already present is a no-op). -/
def register (reg : Registry) (cid conn : Nat) : Registry :=
  match lookupConv reg cid with
  | none => (cid, [conn]) :: reg
  | some conns => updateConv reg cid (if conn ∈ conns then conns else conn :: conns)

/-- chat.py `broadcast` (lines 22-34): if the conversation is registered,
iterate over a copy of its set, attempting `send_json` on each socket;
sockets whose send raises are collected in `disconnected` and subtracted
from the set afterward.  `fails c = true` models `ws.send_json` raising
for connection `c`.  Returns the new registry together with the list of
connections to which a send was attempted (the snapshot). -/
def broadcastStep (reg : Registry) (cid : Nat) (fails : Nat → Bool) :
    Registry × List Nat :=
  match lookupConv reg cid with
  | none => (reg, [])
  | some conns =>
      let disconnected := conns.filter fails
      let reg' := if disconnected.isEmpty then reg
                  else updateConv reg cid (conns.filter (fun c => !(fails c)))
      (reg', conns)

/-- chat.py lines 96-99 (the `finally` block's registry part):
`discard(websocket)`, then delete the conversation entry if its set
became empty. -/
def disconnectCleanupReg (reg : Registry) (cid conn : Nat) : Registry :=
  match lookupConv reg cid with
  | none => reg
  | some conns =>
      let conns' := conns.erase conn
      if conns'.isEmpty then removeConv reg cid else updateConv reg cid conns'

/-! ### Persistence model (messages/models.py)

`MessageModel` and `ConversationModel` rows.  UUIDs are modelled as
`Nat`, timestamps as `Nat` instants.  `conversations.last_message_id`
carries `ForeignKey('messages.id', ondelete='SET NULL')`: deleting a
message row nulls, in the same transaction, every conversation pointer
referencing it. -/

structure Message where
  id : Nat
  conversation_id : Nat
  sender_id : Nat
  text : String
  is_read : Bool
  is_edited : Bool
  deleted_for : List Nat
  created_at : Nat
  edited_at : Option Nat
  deriving Repr, DecidableEq

structure Conversation where
  id : Nat
  last_message_id : Option Nat
  deriving Repr, DecidableEq

structure DB where
  messages : List Message
  conversations : List Conversation
  deriving Repr, DecidableEq

/-- Lookup `session.get(MessageModel, message_id)` — by primary key. -/
def findMsg : List Message → Nat → Option Message
  | [], _ => none
  | msg :: rest, m => if msg.id = m then some msg else findMsg rest m

/-- Lookup `session.get(ConversationModel, conversation_id)`. -/
def findConv : List Conversation → Nat → Option Conversation
  | [], _ => none
  | c :: rest, cid => if c.id = cid then some c else findConv rest cid

/-- Mutate the message row with primary key `m` in place. -/
def updateMsg (msgs : List Message) (m : Nat) (f : Message → Message) :
    List Message :=
  msgs.map (fun msg => if msg.id = m then f msg else msg)

/-- Deletion `session.delete(msg)` followed by commit: the row disappears and the
`ondelete='SET NULL'` foreign key clears every `last_message_id` that
pointed at it, within the same transaction. -/
def hardDeleteMsg (db : DB) (m : Nat) : DB :=
  { messages := db.messages.filter (fun msg => msg.id ≠ m),
    conversations := db.conversations.map
      (fun c => if c.last_message_id = some m
                then { c with last_message_id := none } else c) }

/-! ### Event handlers (chat.py lines 106-222)

Each handler is a function from the pre-state to the post-state plus the
ordered list of externally visible actions it performs: transaction
commits, broadcasts to the conversation, and direct replies on the
requesting socket.  JSON field access `data.get(...)` is modelled by
`Option`/default arguments. -/

/-- An outbound JSON payload, with the fields the code serialises. -/
inductive Payload
  | newMessage (id sender : Nat) (text : String) (cid : Nat)
      (createdAt : Nat) (isRead isEdited : Bool)
  | messageRead (mid reader : Nat)
  | messageEdited (id sender : Nat) (text : String) (isEdited : Bool)
      (editedAt : Nat) (cid : Nat)
  | messageDeleted (mid : Nat) (mode : String)
  | ping
  | errorEvent
  deriving Repr, DecidableEq

/-- An externally visible step of a handler, in program order. -/
inductive Action
  | commit
  | broadcastEv (cid : Nat) (p : Payload)
  | sendSelf (p : Payload)
  deriving Repr, DecidableEq

/-- chat.py lines 118-148. `newId` is the id the database assigns at
`flush`, `now` the `created_at` instant. -/
def handle_new_message (db : DB) (user cid : Nat) (rawText : String)
    (newId now : Nat) : DB × List Action :=
  let text := rawText.trim
  if text.isEmpty then (db, [])
  else
    let msg : Message :=
      { id := newId, conversation_id := cid, sender_id := user, text := text,
        is_read := false, is_edited := false, deleted_for := [],
        created_at := now, edited_at := none }
    let db1 : DB := { db with messages := db.messages ++ [msg] }
    let db2 : DB :=
      match findConv db1.conversations cid with
      | some _ =>
          let convs := db1.conversations.map
            (fun c => if c.id = cid then { c with last_message_id := some newId }
                      else c)
          { db1 with conversations := convs }
      | none => db1
    (db2, [Action.commit,
           Action.broadcastEv cid
             (Payload.newMessage newId user text cid now false false)])

/-- chat.py lines 150-164.  `mid = none` models a missing/falsy
`message_id` field. -/
def handle_read_message (db : DB) (user cid : Nat) (mid : Option Nat) :
    DB × List Action :=
  match mid with
  | none => (db, [])
  | some m =>
      match findMsg db.messages m with
      | none => (db, [])
      | some msg =>
          if msg.conversation_id = cid ∧ msg.sender_id ≠ user then
            let msgs := updateMsg db.messages m (fun x => { x with is_read := true })
            ({ db with messages := msgs },
             [Action.commit,
              Action.broadcastEv cid (Payload.messageRead m user)])
          else (db, [])

/-- chat.py lines 166-191. -/
def handle_edit_message (db : DB) (user cid : Nat) (mid : Option Nat)
    (rawText : String) (now : Nat) : DB × List Action :=
  let newText := rawText.trim
  match mid with
  | none => (db, [])
  | some m =>
      if newText.isEmpty then (db, [])
      else
        match findMsg db.messages m with
        | none => (db, [])
        | some msg =>
            if msg.sender_id = user ∧ msg.conversation_id = cid then
              let msgs := updateMsg db.messages m
                (fun x => { x with text := newText, is_edited := true,
                                   edited_at := some now })
              ({ db with messages := msgs },
               [Action.commit,
                Action.broadcastEv cid
                  (Payload.messageEdited m msg.sender_id newText true now cid)])
            else (db, [])

/-- Models `msg.deleted_for.append(user.id)` guarded by
`if user.id not in msg.deleted_for`. -/
def selfDelete (deletedFor : List Nat) (user : Nat) : List Nat :=
  if user ∈ deletedFor then deletedFor else deletedFor ++ [user]

/-- chat.py lines 193-222.  `mode` defaults to `"self"` upstream via
`data.get('mode', 'self')`. -/
def handle_delete_message (db : DB) (user cid : Nat) (mid : Option Nat)
    (mode : String) : DB × List Action :=
  match mid with
  | none => (db, [])
  | some m =>
      match findMsg db.messages m with
      | none => (db, [])
      | some msg =>
          if msg.conversation_id ≠ cid then (db, [])
          else if mode = "self" then
            if user ∈ msg.deleted_for then
              (db, [Action.sendSelf (Payload.messageDeleted m "self")])
            else
              let msgs := updateMsg db.messages m
                (fun x => { x with deleted_for := selfDelete x.deleted_for user })
              ({ db with messages := msgs },
               [Action.commit,
                Action.sendSelf (Payload.messageDeleted m "self")])
          else if mode = "all" ∧ msg.sender_id = user then
            (hardDeleteMsg db m,
             [Action.commit,
              Action.broadcastEv cid (Payload.messageDeleted m "all")])
          else (db, [])

/-- The database after appending `user` to message `m`'s deletion set. -/
def dbSelfDeleted (db : DB) (m user : Nat) : DB :=
  { db with messages := updateMsg db.messages m (fun x => { x with deleted_for := selfDelete x.deleted_for user }) }

/-- Returns `true` iff every `broadcastEv` in the trace is preceded by a `commit`.
The accumulator records whether a commit has already been performed. -/
def commitBeforeAux : Bool → List Action → Bool
  | _, [] => true
  | _, Action.commit :: rest => commitBeforeAux true rest
  | seen, Action.broadcastEv _ _ :: rest => seen && commitBeforeAux seen rest
  | seen, Action.sendSelf _ :: rest => commitBeforeAux seen rest

def broadcastAfterCommit (acts : List Action) : Bool :=
  commitBeforeAux false acts

/-! ### Broadcast delivery of a handler trace

chat.py line 85 runs a handler, whose `broadcast(...)` calls fan out over
the registry.  `deliverBroadcasts` replays a handler trace against a
registry, performing each `broadcastEv` via `broadcastStep` and
collecting every attempted `(connection, payload)` send. -/

def deliverBroadcasts (fails : Nat → Bool) :
    Registry → List Action → Registry × List (Nat × Payload)
  | reg, [] => (reg, [])
  | reg, Action.broadcastEv cid p :: rest =>
      let s := broadcastStep reg cid fails
      let t := deliverBroadcasts fails s.1 rest
      (t.1, s.2.map (fun c => (c, p)) ++ t.2)
  | reg, Action.commit :: rest => deliverBroadcasts fails reg rest
  | reg, Action.sendSelf _ :: rest => deliverBroadcasts fails reg rest

/-- Runs `handle_read_message` followed by fan-out of the broadcasts it
emitted: post-state, post-registry, and attempted sends. -/
def readMessageDelivery (db : DB) (reg : Registry) (user cid : Nat)
    (mid : Option Nat) (fails : Nat → Bool) :
    DB × Registry × List (Nat × Payload) :=
  let h := handle_read_message db user cid mid
  let d := deliverBroadcasts fails reg h.2
  (h.1, d.1, d.2)

/-- A two-user fixture: conversation 0 between users 1 (socket 10) and
2 (socket 20), holding message 5 sent by user 1, unread. -/
def dbAB : DB :=
  { messages := [{ id := 5, conversation_id := 0, sender_id := 1, text := "hi",
                   is_read := false, is_edited := false, deleted_for := [],
                   created_at := 0, edited_at := none }],
    conversations := [{ id := 0, last_message_id := some 5 }] }

def regAB : Registry := [(0, [10, 20])]

/-! ### Redis presence model (chat.py lines 17-18, 67-68, 75, 101-102;
presence.py lines 13-15, 26, 32, 50-52; router.py lines 13-15, 35-65)

A Redis logical database is a list of `(key, value, expiry)` entries;
`expiry = some e` means the key vanishes for reads at instants `t ≥ e`.
chat.py connects to logical database 2 (`f'{redis_url}/2'`), while both
presence.py and router.py connect to logical database 1
(`f'{redis_url}/1'`). -/

abbrev RStore := List (String × String × Option Nat)

def rlookup : RStore → String → Option (String × Option Nat)
  | [], _ => none
  | (k, v, e) :: rest, key => if k = key then some (v, e) else rlookup rest key

/-- Redis `DEL key`. -/
def rdel : RStore → String → RStore
  | [], _ => []
  | (pk, pv, pe) :: rest, k =>
      if pk = k then rdel rest k else (pk, pv, pe) :: rdel rest k

/-- Redis `SET key value [EX ttl]` — overwrite, with absolute expiry `e`. -/
def rset (s : RStore) (k v : String) (e : Option Nat) : RStore :=
  (k, v, e) :: rdel s k

/-- Redis `GET key` at instant `now`: an entry with expiry `e` is live while
`now < e`. -/
def rget (s : RStore) (k : String) (now : Nat) : Option String :=
  match rlookup s k with
  | none => none
  | some (v, none) => some v
  | some (v, some e) => if now < e then some v else none

/-- Redis `EXPIRE key ttl` at `now`: refresh a live key's expiry to `now + ttl`;
no effect on an absent or already-expired key. -/
def rexpire (s : RStore) (k : String) (now ttl : Nat) : RStore :=
  match rget s k now with
  | some v => rset s k v (some (now + ttl))
  | none => s

def statusKey (uid : Nat) : String := "user:" ++ toString uid ++ ":status"

def lastSeenKey (uid : Nat) : String := "user:" ++ toString uid ++ ":last_seen"

/-- The two Redis logical databases the application uses. -/
structure PresenceState where
  db1 : RStore
  db2 : RStore
  deriving Repr, DecidableEq

/-- chat.py lines 67-68: `await r.set(user_key, 'online', ex=60)` against
the chat module's client (`redis.from_url(f'{redis_url}/2')`). -/
def chatMarkOnlineStore (store : RStore) (uid now : Nat) : RStore :=
  rset store (statusKey uid) "online" (some (now + 60))

def chatMarkOnline (s : PresenceState) (uid now : Nat) : PresenceState :=
  { s with db2 := chatMarkOnlineStore s.db2 uid now }

/-- presence.py line 26: `await r.set(user_key, 'online')` against the
presence module's client (`redis.from_url(f'{redis_url}/1')`). -/
def presenceMarkOnline (s : PresenceState) (uid : Nat) : PresenceState :=
  { s with db1 := rset s.db1 (statusKey uid) "online" none }

inductive UserStatus
  | online
  | offline (lastSeen : Option String)
  deriving Repr, DecidableEq

/-- The status logic of router.py lines 35-65 against a single store:
`online` if the status key is live, else `offline` with the last-seen
value when present (the recorded ISO timestamp round-trips the parse). -/
def statusView (store : RStore) (uid now : Nat) : UserStatus :=
  match rget store (statusKey uid) now with
  | some _ => UserStatus.online
  | none =>
      match rget store (lastSeenKey uid) now with
      | some v => UserStatus.offline (some v)
      | none => UserStatus.offline none

/-- router.py `get_user_status`: reads its own Redis client, which is
connected to logical database 1. -/
def get_user_status (s : PresenceState) (uid now : Nat) : UserStatus :=
  statusView s.db1 uid now

/-! ### Session lifecycle (chat.py lines 46-104) -/

/-- Exit paths of the receive loop at chat.py lines 70-93. -/
inductive ExitReason
  | clientDisconnect
  | pingSendFailure
  | receiveError
  deriving Repr, DecidableEq

/-- One registry/store action of the `finally` cleanup. -/
inductive CleanupAction
  | unregisterConn
  | setLastSeen
  | deleteStatus
  deriving Repr, DecidableEq

/-- chat.py lines 94-104: discard the socket from the registry (dropping
an emptied conversation entry), then write `user:{id}:last_seen`, then
delete `user:{id}:status`. -/
def cleanupSeq : List CleanupAction :=
  [CleanupAction.unregisterConn, CleanupAction.setLastSeen,
   CleanupAction.deleteStatus]

/-- Models the `finally` block: it runs the same cleanup on every exit path. -/
def exitCleanup : ExitReason → List CleanupAction := fun _ => cleanupSeq

/-- Models `datetime.now(timezone.utc).isoformat()`, abstracted to the instant. -/
def isoTimestamp (now : Nat) : String := toString now

/-- The mutable state the session's cleanup touches: the registry and the
chat module's Redis database. -/
structure SessionState where
  reg : Registry
  store : RStore
  deriving Repr, DecidableEq

def applyCleanupAction (uid cid conn now : Nat) (s : SessionState) :
    CleanupAction → SessionState
  | CleanupAction.unregisterConn =>
      { s with reg := disconnectCleanupReg s.reg cid conn }
  | CleanupAction.setLastSeen =>
      { s with store := rset s.store (lastSeenKey uid) (isoTimestamp now) none }
  | CleanupAction.deleteStatus =>
      { s with store := rdel s.store (statusKey uid) }

def runCleanup (uid cid conn now : Nat) (s : SessionState)
    (acts : List CleanupAction) : SessionState :=
  acts.foldl (applyCleanupAction uid cid conn now) s

/-- What `await asyncio.wait_for(websocket.receive_json(), timeout=45)`
produced. -/
inductive RecvResult
  | event
  | timeout
  | disconnected
  deriving Repr, DecidableEq

inductive TickOut
  | dispatchEvent
  | continueLoop
  | exitLoop (e : ExitReason)
  deriving Repr, DecidableEq

/-- chat.py lines 71-82: one wait of the receive loop.  On timeout the
presence TTL is refreshed (`await r.expire(user_key, 60)`) and a `ping`
payload is pushed to the client; a failed ping send breaks out of the
loop, a successful one continues it; a disconnect breaks out.  These
lines never touch the registry; a received event falls through to
`handle_websocket_event`, modelled separately by the handlers above. -/
def recvTick (recv : RecvResult) (pingOk : Bool) (reg : Registry)
    (store : RStore) (uid now : Nat) :
    TickOut × Registry × RStore × List Payload :=
  match recv with
  | RecvResult.event => (TickOut.dispatchEvent, reg, store, [])
  | RecvResult.timeout =>
      let store' := rexpire store (statusKey uid) now 60
      if pingOk then (TickOut.continueLoop, reg, store', [Payload.ping])
      else (TickOut.exitLoop ExitReason.pingSendFailure, reg, store',
            [Payload.ping])
  | RecvResult.disconnected =>
      (TickOut.exitLoop ExitReason.clientDisconnect, reg, store, [])

/-- Result of `verify_user_in_conversation` (chat.py lines 36-44):
either the membership boolean, or the SELECT itself raised. -/
inductive AuthCheck
  | ok (isParticipant : Bool)
  | lookupError
  deriving Repr, DecidableEq

inductive SetupResult
  | refused (closeCode : Nat)
  | active
  deriving Repr, DecidableEq

/-- chat.py lines 53-68: accept, authorize, register, mark online.  A
non-participant is refused with `close(code=4003)`, an authorization
lookup error with `close(code=4000)`; only the authorized path touches
the registry and the presence store, and nothing before the event loop
writes to the message database. -/
def chat_ws_setup (auth : AuthCheck) (reg : Registry) (db : DB)
    (store : RStore) (cid conn uid now : Nat) :
    SetupResult × Registry × DB × RStore :=
  match auth with
  | AuthCheck.lookupError => (SetupResult.refused 4000, reg, db, store)
  | AuthCheck.ok false => (SetupResult.refused 4003, reg, db, store)
  | AuthCheck.ok true =>
      (SetupResult.active, register reg cid conn, db,
       chatMarkOnlineStore store uid now)

/-! ## Theorems -/

theorem lookupConv_updateConv_self {reg : Registry} {cid : Nat} {conns : List Nat}
    (h : lookupConv reg cid = some conns) (l : List Nat) :
    lookupConv (updateConv reg cid l) cid = some l := by
  induction reg with
  | nil => simp [lookupConv] at h
  | cons p rest ih =>
      obtain ⟨k, v⟩ := p
      by_cases hk : k = cid
      · subst hk
        simp [updateConv, lookupConv]
      · simp only [lookupConv, if_neg hk] at h
        simpa [updateConv, lookupConv, hk] using ih h

theorem lookupConv_updateConv_isSome (reg : Registry) (cid : Nat) (l : List Nat)
    (c : Nat) :
    (lookupConv (updateConv reg cid l) c).isSome = (lookupConv reg c).isSome := by
  induction reg with
  | nil => simp [updateConv, lookupConv]
  | cons p rest ih =>
      obtain ⟨k, v⟩ := p
      by_cases hk : k = cid
      · subst hk
        by_cases hc : k = c
        · subst hc; simp [updateConv, lookupConv]
        · simpa [updateConv, lookupConv, hc] using ih
      · by_cases hc : k = c
        · subst hc; simp [updateConv, lookupConv, hk]
        · simpa [updateConv, lookupConv, hk, hc] using ih

theorem lookupConv_removeConv (reg : Registry) (cid : Nat) :
    lookupConv (removeConv reg cid) cid = none := by
  induction reg with
  | nil => simp [removeConv, lookupConv]
  | cons p rest ih =>
      obtain ⟨k, v⟩ := p
      by_cases hk : k = cid
      · subst hk
        simpa [removeConv, lookupConv] using ih
      · simpa [removeConv, lookupConv, hk] using ih

theorem filter_not_of_filter_nil {l : List Nat} {p : Nat → Bool}
    (h : l.filter p = []) : l.filter (fun c => !(p c)) = l := by
  rw [List.filter_eq_self]
  rw [List.filter_eq_nil_iff] at h
  intro a ha
  simpa using h a ha

theorem broadcastStep_eq {reg : Registry} {cid : Nat} {conns : List Nat}
    (fails : Nat → Bool) (h : lookupConv reg cid = some conns) :
    broadcastStep reg cid fails =
      (if (conns.filter fails).isEmpty then reg
       else updateConv reg cid (conns.filter (fun c => !(fails c))), conns) := by
  unfold broadcastStep
  rw [h]

theorem disconnectCleanupReg_eq {reg : Registry} {cid : Nat} {conns : List Nat}
    (conn : Nat) (h : lookupConv reg cid = some conns) :
    disconnectCleanupReg reg cid conn =
      (if (conns.erase conn).isEmpty then removeConv reg cid
       else updateConv reg cid (conns.erase conn)) := by
  unfold disconnectCleanupReg
  rw [h]

/-- C2. For every registry state (hence for every sequence of
register/unregister operations producing it), `broadcast` attempts a send
to exactly the set of connections registered for the conversation at the
moment of the call, and afterward the conversation's set is exactly the
non-failing connections: a send failure removes only the failing
connections, never the others, and does not abort the remaining sends. -/
theorem broadcast_attempts_registered_and_removes_only_failing
    (reg : Registry) (cid : Nat) (fails : Nat → Bool) (conns : List Nat)
    (h : lookupConv reg cid = some conns) :
    (broadcastStep reg cid fails).2 = conns ∧
    lookupConv (broadcastStep reg cid fails).1 cid
      = some (conns.filter (fun c => !(fails c))) := by
  rw [broadcastStep_eq fails h]
  refine ⟨rfl, ?_⟩
  by_cases hd : (conns.filter fails).isEmpty
  · rw [if_pos hd]
    rw [List.isEmpty_iff] at hd
    rw [filter_not_of_filter_nil hd]
    exact h
  · rw [if_neg hd]
    exact lookupConv_updateConv_self h _

/-- Witness for C2: a concrete broadcast over `{7 ↦ {1, 2, 3}}` where the
send to connection 2 fails attempts all of 1, 2, 3 and leaves `{1, 3}`. -/
theorem broadcast_attempts_registered_and_removes_only_failing_witness :
    (broadcastStep [(7, [1, 2, 3])] 7 (fun c => c = 2)).2 = [1, 2, 3] ∧
    lookupConv (broadcastStep [(7, [1, 2, 3])] 7 (fun c => c = 2)).1 7
      = some ([1, 2, 3].filter (fun c => !(c = 2 : Bool))) :=
  broadcast_attempts_registered_and_removes_only_failing
    [(7, [1, 2, 3])] 7 (fun c => c = 2) [1, 2, 3] (by decide)

/-- C10. A broadcast in which every registered connection of a
conversation fails removes them all but keeps the conversation's
now-empty set in the registry (broadcast never deletes a conversation
key), whereas the disconnect-cleanup path does delete a conversation
entry once its set is empty. -/
theorem broadcast_all_fail_leaves_empty_set
    (reg : Registry) (cid : Nat) (conns : List Nat)
    (h : lookupConv reg cid = some conns) (hne : conns ≠ []) :
    lookupConv (broadcastStep reg cid (fun _ => true)).1 cid = some [] ∧
    (∀ fails c, (lookupConv (broadcastStep reg cid fails).1 c).isSome
        = (lookupConv reg c).isSome) ∧
    (∀ conn, conns.erase conn = [] →
        lookupConv (disconnectCleanupReg reg cid conn) cid = none) := by
  refine ⟨?_, ?_, ?_⟩
  · rw [broadcastStep_eq (fun _ => true) h]
    have hfilter : conns.filter (fun _ => true) = conns := by simp
    have hne' : ¬(conns.filter (fun _ => true)).isEmpty := by
      rw [hfilter, List.isEmpty_iff]; exact hne
    rw [if_neg hne']
    have hnil : conns.filter (fun _ => !(true : Bool)) = [] := by simp
    rw [hnil]
    exact lookupConv_updateConv_self h ([] : List Nat)
  · intro fails c
    rw [broadcastStep_eq fails h]
    by_cases hd : (conns.filter fails).isEmpty
    · rw [if_pos hd]
    · rw [if_neg hd]
      exact lookupConv_updateConv_isSome reg cid _ c
  · intro conn herase
    rw [disconnectCleanupReg_eq conn h]
    rw [herase]
    simp only [List.isEmpty_nil, if_pos]
    exact lookupConv_removeConv reg cid

/-- Witness for C10: over `{5 ↦ {9}}`, an all-failing broadcast leaves
`{5 ↦ {}}`, and disconnect cleanup for connection 9 deletes the entry. -/
theorem broadcast_all_fail_leaves_empty_set_witness :
    lookupConv (broadcastStep [(5, [9])] 5 (fun _ => true)).1 5 = some [] ∧
    (∀ fails c, (lookupConv (broadcastStep [(5, [9])] 5 fails).1 c).isSome
        = (lookupConv [(5, [9])] c).isSome) ∧
    (∀ conn, ([9] : List Nat).erase conn = [] →
        lookupConv (disconnectCleanupReg [(5, [9])] 5 conn) 5 = none) :=
  broadcast_all_fail_leaves_empty_set [(5, [9])] 5 [9] (by decide) (by decide)

/-- C1. Every mutation handler (`new_message`, `read_message`,
`edit_message`, `delete_message`) commits its persistence transaction
before emitting any broadcast: on every control-flow branch of every
handler, each `broadcastEv` action in the emitted trace is preceded by a
`commit` action, so no broadcast reflects an uncommitted change. -/
theorem handlers_broadcast_after_commit
    (db : DB) (user cid : Nat) (rawText : String) (newId now : Nat)
    (mid : Option Nat) (mode : String) :
    broadcastAfterCommit (handle_new_message db user cid rawText newId now).2 = true ∧
    broadcastAfterCommit (handle_read_message db user cid mid).2 = true ∧
    broadcastAfterCommit (handle_edit_message db user cid mid rawText now).2 = true ∧
    broadcastAfterCommit (handle_delete_message db user cid mid mode).2 = true := by
  refine ⟨?_, ?_, ?_, ?_⟩ <;>
    simp only [handle_new_message, handle_read_message, handle_edit_message,
      handle_delete_message] <;>
    (repeat' split) <;>
    simp [broadcastAfterCommit, commitBeforeAux]

/-- C3 counterexample. Reader B (user 2, socket 20) sends
`read_message` for message 5 sent by A (user 1): the resulting
`message_read` broadcast *is* attempted on B's own socket 20, refuting
the claim that the broadcast excludes the reader's connection. -/
theorem read_message_reaches_reader_socket :
    (20, Payload.messageRead 5 2) ∈
      (readMessageDelivery dbAB regAB 2 0 (some 5) (fun _ => false)).2.2 := by
  decide

theorem handle_read_message_eq (db : DB) (user cid m : Nat) (msg : Message)
    (hf : findMsg db.messages m = some msg) :
    handle_read_message db user cid (some m) =
      if msg.conversation_id = cid ∧ msg.sender_id ≠ user then
        ({ db with messages :=
             updateMsg db.messages m (fun x => { x with is_read := true }) },
         [Action.commit, Action.broadcastEv cid (Payload.messageRead m user)])
      else (db, []) := by
  simp only [handle_read_message, hf]

theorem deliverBroadcasts_commit_broadcast (fails : Nat → Bool)
    (reg : Registry) (cid : Nat) (p : Payload) (conns : List Nat)
    (hconns : lookupConv reg cid = some conns) :
    (deliverBroadcasts fails reg
        [Action.commit, Action.broadcastEv cid p]).2
      = conns.map (fun c => (c, p)) := by
  unfold deliverBroadcasts
  unfold deliverBroadcasts
  rw [broadcastStep_eq fails hconns]
  simp [deliverBroadcasts]

/-- C3 amended. The `message_read` broadcast is attempted on every
connection registered for the conversation — the reader's own socket
included; the handler is a no-op (nothing is sent to anyone) exactly
when the reader is the message's sender. -/
theorem read_message_broadcast_goes_to_all_registered
    (db : DB) (reg : Registry) (user cid m : Nat) (msg : Message)
    (conns : List Nat) (fails : Nat → Bool)
    (hf : findMsg db.messages m = some msg)
    (hcid : msg.conversation_id = cid)
    (hconns : lookupConv reg cid = some conns) :
    (msg.sender_id ≠ user →
      (readMessageDelivery db reg user cid (some m) fails).2.2
        = conns.map (fun c => (c, Payload.messageRead m user))) ∧
    (msg.sender_id = user →
      (readMessageDelivery db reg user cid (some m) fails).2.2 = []) := by
  constructor
  · intro hne
    unfold readMessageDelivery
    rw [handle_read_message_eq db user cid m msg hf]
    rw [if_pos (And.intro hcid hne)]
    exact deliverBroadcasts_commit_broadcast fails reg cid _ conns hconns
  · intro heq
    unfold readMessageDelivery
    rw [handle_read_message_eq db user cid m msg hf]
    have hno : ¬(msg.conversation_id = cid ∧ msg.sender_id ≠ user) := by
      intro hcontra
      exact hcontra.2 heq
    rw [if_neg hno]
    simp [deliverBroadcasts]

/-- Witness for C3's amended theorem, on the concrete fixture: reader 2
is not the sender of message 5, and the broadcast is attempted on both
registered sockets 10 and 20. -/
theorem read_message_broadcast_goes_to_all_registered_witness :
    ((1 : Nat) ≠ 2 →
      (readMessageDelivery dbAB regAB 2 0 (some 5) (fun _ => false)).2.2
        = [10, 20].map (fun c => (c, Payload.messageRead 5 2))) ∧
    ((1 : Nat) = 2 →
      (readMessageDelivery dbAB regAB 2 0 (some 5) (fun _ => false)).2.2 = []) :=
  read_message_broadcast_goes_to_all_registered dbAB regAB 2 0 5
    { id := 5, conversation_id := 0, sender_id := 1, text := "hi",
      is_read := false, is_edited := false, deleted_for := [],
      created_at := 0, edited_at := none }
    [10, 20] (fun _ => false) (by decide) (by decide) (by decide)

/-! ### delete_message (C8, C9) -/

theorem findMsg_updateMsg (msgs : List Message) (m : Nat) (f : Message → Message)
    (hid : ∀ x, (f x).id = x.id) :
    findMsg (updateMsg msgs m f) m = (findMsg msgs m).map f := by
  induction msgs with
  | nil => rfl
  | cons msg rest ih =>
      by_cases h : msg.id = m
      · simp [updateMsg, findMsg, h, hid msg]
      · simp only [updateMsg, List.map_cons, if_neg h, findMsg] at ih ⊢
        exact ih

theorem selfDelete_nodup {l : List Nat} {u : Nat} (h : l.Nodup) :
    (selfDelete l u).Nodup := by
  unfold selfDelete
  split
  · exact h
  · rename_i hmem
    simp [List.nodup_append, h, hmem]

theorem selfDelete_count_eq_one {l : List Nat} {u : Nat} (h : l.Nodup) :
    List.count u (selfDelete l u) = 1 := by
  unfold selfDelete
  split
  · rename_i hmem
    exact List.count_eq_one_of_mem h hmem
  · rename_i hmem
    rw [List.count_append, List.count_eq_zero_of_not_mem hmem]
    simp

theorem handle_delete_self_eq (db : DB) (user cid m : Nat) (msg : Message)
    (hf : findMsg db.messages m = some msg) (hcid : msg.conversation_id = cid) :
    handle_delete_message db user cid (some m) "self" =
      if user ∈ msg.deleted_for then
        (db, [Action.sendSelf (Payload.messageDeleted m "self")])
      else
        (dbSelfDeleted db m user,
         [Action.commit, Action.sendSelf (Payload.messageDeleted m "self")]) := by
  simp only [handle_delete_message, hf, dbSelfDeleted]
  rw [if_neg (by simp [hcid])]
  rw [if_pos (by trivial)]

/-- C8. `delete_message` with mode `self` is idempotent per user:
starting from a duplicate-free deletion set, applying the self-delete
handler twice for the same user leaves the message with exactly one
deletion-set entry for that user, and the deletion set stays
duplicate-free. -/
theorem delete_self_idempotent
    (db : DB) (user cid m : Nat) (msg : Message)
    (hf : findMsg db.messages m = some msg)
    (hcid : msg.conversation_id = cid)
    (hnd : msg.deleted_for.Nodup) :
    ∃ msg2,
      findMsg ((handle_delete_message
          (handle_delete_message db user cid (some m) "self").1
          user cid (some m) "self").1).messages m = some msg2 ∧
      List.count user msg2.deleted_for = 1 ∧
      msg2.deleted_for.Nodup := by
  by_cases hmem : user ∈ msg.deleted_for
  · have h1 : (handle_delete_message db user cid (some m) "self").1 = db := by
      rw [handle_delete_self_eq db user cid m msg hf hcid, if_pos hmem]
    rw [h1, h1]
    exact ⟨msg, hf, List.count_eq_one_of_mem hnd hmem, hnd⟩
  · have h1 : (handle_delete_message db user cid (some m) "self").1
        = dbSelfDeleted db m user := by
      rw [handle_delete_self_eq db user cid m msg hf hcid, if_neg hmem]
    have hid : ∀ x : Message,
        ((fun y : Message => { y with deleted_for := selfDelete y.deleted_for user }) x).id
          = x.id := fun _ => rfl
    have hf1 : findMsg (dbSelfDeleted db m user).messages m
        = some { msg with deleted_for := selfDelete msg.deleted_for user } := by
      show findMsg (updateMsg db.messages m _) m = _
      rw [findMsg_updateMsg db.messages m _ hid, hf]
      rfl
    have hmem1 : user ∈ (selfDelete msg.deleted_for user) := by
      simp [selfDelete, hmem]
    have h2 : (handle_delete_message (dbSelfDeleted db m user)
        user cid (some m) "self").1 = dbSelfDeleted db m user := by
      rw [handle_delete_self_eq _ user cid m
          { msg with deleted_for := selfDelete msg.deleted_for user } hf1 hcid,
        if_pos hmem1]
    rw [h1, h2]
    refine ⟨{ msg with deleted_for := selfDelete msg.deleted_for user }, hf1, ?_, ?_⟩
    · exact selfDelete_count_eq_one hnd
    · exact selfDelete_nodup hnd

/-- Witness for C8 on the concrete fixture: user 2 self-deletes message 5
(whose deletion set starts empty) twice. -/
theorem delete_self_idempotent_witness :
    ∃ msg2,
      findMsg ((handle_delete_message
          (handle_delete_message dbAB 2 0 (some 5) "self").1
          2 0 (some 5) "self").1).messages 5 = some msg2 ∧
      List.count 2 msg2.deleted_for = 1 ∧
      msg2.deleted_for.Nodup :=
  delete_self_idempotent dbAB 2 0 5
    { id := 5, conversation_id := 0, sender_id := 1, text := "hi",
      is_read := false, is_edited := false, deleted_for := [],
      created_at := 0, edited_at := none }
    (by decide) (by decide) (by decide)

/-- C9. `delete_message` with mode `all`: when the caller is the
message's sender the handler hard-deletes the row (no message with that
id survives), clears — in the same transaction — every conversation
last-message pointer that referenced it, and broadcasts
`message_deleted`/`all`, which fan-out attempts on every registered
connection of the conversation; any caller other than the sender gets a
no-op (no state change, no action). -/
theorem delete_all_only_sender_hard_deletes
    (db : DB) (user cid m : Nat) (msg : Message)
    (hf : findMsg db.messages m = some msg)
    (hcid : msg.conversation_id = cid)
    (hsender : msg.sender_id = user) :
    handle_delete_message db user cid (some m) "all"
      = (hardDeleteMsg db m,
         [Action.commit, Action.broadcastEv cid (Payload.messageDeleted m "all")]) ∧
    (∀ x ∈ (hardDeleteMsg db m).messages, x.id ≠ m) ∧
    (∀ c ∈ (hardDeleteMsg db m).conversations, c.last_message_id ≠ some m) ∧
    (∀ reg conns fails, lookupConv reg cid = some conns →
      (deliverBroadcasts fails reg
          (handle_delete_message db user cid (some m) "all").2).2
        = conns.map (fun c => (c, Payload.messageDeleted m "all"))) ∧
    (∀ other, other ≠ msg.sender_id →
      handle_delete_message db other cid (some m) "all" = (db, [])) := by
  have hmain : handle_delete_message db user cid (some m) "all"
      = (hardDeleteMsg db m,
         [Action.commit, Action.broadcastEv cid (Payload.messageDeleted m "all")]) := by
    simp only [handle_delete_message, hf]
    rw [if_neg (by simp [hcid])]
    rw [if_neg (by decide : ¬("all" : String) = "self")]
    rw [if_pos (by exact ⟨by trivial, hsender⟩)]
  refine ⟨hmain, ?_, ?_, ?_, ?_⟩
  · intro x hx
    simp only [hardDeleteMsg, List.mem_filter] at hx
    simpa using hx.2
  · intro c hc
    simp only [hardDeleteMsg, List.mem_map] at hc
    obtain ⟨c0, _, hc0⟩ := hc
    subst hc0
    by_cases hlast : c0.last_message_id = some m
    · simp [hlast]
    · simp [hlast]
  · intro reg conns fails hconns
    rw [hmain]
    exact deliverBroadcasts_commit_broadcast fails reg cid _ conns hconns
  · intro other hne
    simp only [handle_delete_message, hf]
    rw [if_neg (by simp [hcid])]
    rw [if_neg (by decide : ¬("all" : String) = "self")]
    rw [if_neg (fun hcontra => hne hcontra.2.symm)]

/-- Witness for C9 on the concrete fixture: sender 1 deletes message 5
with mode `all` in conversation 0. -/
theorem delete_all_only_sender_hard_deletes_witness :
    handle_delete_message dbAB 1 0 (some 5) "all"
      = (hardDeleteMsg dbAB 5,
         [Action.commit, Action.broadcastEv 0 (Payload.messageDeleted 5 "all")]) ∧
    (∀ x ∈ (hardDeleteMsg dbAB 5).messages, x.id ≠ 5) ∧
    (∀ c ∈ (hardDeleteMsg dbAB 5).conversations, c.last_message_id ≠ some 5) ∧
    (∀ reg conns fails, lookupConv reg 0 = some conns →
      (deliverBroadcasts fails reg
          (handle_delete_message dbAB 1 0 (some 5) "all").2).2
        = conns.map (fun c => (c, Payload.messageDeleted 5 "all"))) ∧
    (∀ other, other ≠ (1 : Nat) →
      handle_delete_message dbAB other 0 (some 5) "all" = (dbAB, [])) :=
  delete_all_only_sender_hard_deletes dbAB 1 0 5
    { id := 5, conversation_id := 0, sender_id := 1, text := "hi",
      is_read := false, is_edited := false, deleted_for := [],
      created_at := 0, edited_at := none }
    (by decide) (by decide) (by decide)

/-! ### Redis store lemmas -/

theorem rlookup_rdel_self (s : RStore) (k : String) :
    rlookup (rdel s k) k = none := by
  induction s with
  | nil => rfl
  | cons p rest ih =>
      obtain ⟨pk, pv, pe⟩ := p
      by_cases h : pk = k
      · simpa [rdel, h] using ih
      · simpa [rdel, rlookup, h] using ih

theorem rlookup_rdel_other (s : RStore) (k k' : String) (hne : k' ≠ k) :
    rlookup (rdel s k) k' = rlookup s k' := by
  induction s with
  | nil => rfl
  | cons p rest ih =>
      obtain ⟨pk, pv, pe⟩ := p
      have hk : ¬ k = k' := fun hh => hne hh.symm
      by_cases h : pk = k
      · have hpk : ¬ pk = k' := fun hh => hne (hh ▸ h)
        simpa [rdel, rlookup, h, hpk, hk] using ih
      · by_cases hk' : pk = k'
        · simp [rdel, rlookup, h, hk', fun hh : k' = k => hne hh]
        · simpa [rdel, rlookup, h, hk'] using ih

theorem rget_rdel_self (s : RStore) (k : String) (t : Nat) :
    rget (rdel s k) k t = none := by
  unfold rget
  rw [rlookup_rdel_self]

theorem rget_rdel_other (s : RStore) (k k' : String) (t : Nat) (hne : k' ≠ k) :
    rget (rdel s k) k' t = rget s k' t := by
  unfold rget
  rw [rlookup_rdel_other s k k' hne]

theorem rget_rset_self_persist (s : RStore) (k v : String) (t : Nat) :
    rget (rset s k v none) k t = some v := by
  simp [rget, rset, rlookup]

theorem rget_rset_self_live (s : RStore) (k v : String) (e t : Nat) (ht : t < e) :
    rget (rset s k v (some e)) k t = some v := by
  simp [rget, rset, rlookup, ht]

theorem rget_rset_other (s : RStore) (k v : String) (e : Option Nat)
    (k' : String) (t : Nat) (hne : k' ≠ k) :
    rget (rset s k v e) k' t = rget s k' t := by
  have hk : ¬ k = k' := fun hh => hne hh.symm
  unfold rget rset
  rw [show rlookup ((k, v, e) :: rdel s k) k' = rlookup (rdel s k) k' from by
        simp [rlookup, hk]]
  rw [rlookup_rdel_other s k k' hne]

theorem rexpire_of_live (s : RStore) (k v : String) (now ttl : Nat)
    (h : rget s k now = some v) :
    rexpire s k now ttl = rset s k v (some (now + ttl)) := by
  unfold rexpire
  rw [h]

theorem statusKey_ne_lastSeenKey (uid : Nat) : statusKey uid ≠ lastSeenKey uid := by
  intro h
  have hlen := congrArg String.length h
  rw [statusKey, lastSeenKey] at hlen
  rw [String.length_append, String.length_append, String.length_append,
    String.length_append] at hlen
  have h7 : (":status" : String).length = 7 := rfl
  have h10 : (":last_seen" : String).length = 10 := rfl
  rw [h7, h10] at hlen
  omega

/-- C4 failing input. User 1's chat connection marks them online at
t = 0 (writing the status key, TTL 60, to the chat module's Redis
database 2); a status query at t = 10 — well inside the TTL window —
returns `offline` with null last-seen, because `get_user_status` reads
Redis database 1.  The same status logic applied to the database the
chat module actually wrote would return `online`. -/
theorem chat_mark_online_invisible_to_status_query :
    get_user_status (chatMarkOnline ⟨[], []⟩ 1 0) 1 10 = UserStatus.offline none ∧
    statusView (chatMarkOnline ⟨[], []⟩ 1 0).db2 1 10 = UserStatus.online := by
  constructor <;> rfl

/-- Supporting evidence for C4-as-intended: a mark-online performed in
the same database the status query reads (as presence.py does, database
1) is visible as `online`. -/
theorem presence_mark_online_visible (s : PresenceState) (uid now : Nat) :
    get_user_status (presenceMarkOnline s uid) uid now = UserStatus.online := by
  unfold get_user_status presenceMarkOnline statusView
  rw [show ({ s with db1 := rset s.db1 (statusKey uid) "online" none } : PresenceState).db1
        = rset s.db1 (statusKey uid) "online" none from rfl]
  rw [rget_rset_self_persist]

/-- C5. A user who is not a `ConversationParticipant` of the target
conversation is refused with close code 4003 — distinct from the
internal-error code 4000 used when the authorization lookup itself
errors — and the refusal leaves the registry, the message database and
the presence store untouched: the connection is never registered and no
persistence mutation is possible. -/
theorem non_participant_refused_before_registration
    (reg : Registry) (db : DB) (store : RStore) (cid conn uid now : Nat) :
    chat_ws_setup (AuthCheck.ok false) reg db store cid conn uid now
      = (SetupResult.refused 4003, reg, db, store) ∧
    (4003 : Nat) ≠ 4000 ∧
    chat_ws_setup AuthCheck.lookupError reg db store cid conn uid now
      = (SetupResult.refused 4000, reg, db, store) :=
  ⟨rfl, by decide, rfl⟩

/-- C6. Every exit path of a chat connection runs the same `finally`
cleanup, in which the last-seen write strictly precedes the deletion of
the online-status key; hence, starting from a state in which the user's
status key is live, no prefix of the cleanup exposes a state whose
status view is neither `online` nor carrying a last-seen value. -/
theorem cleanup_writes_last_seen_before_status_delete
    (e : ExitReason) (uid cid conn now tq : Nat) (s : SessionState)
    (honline : rget s.store (statusKey uid) tq ≠ none) :
    exitCleanup e = cleanupSeq ∧
    List.indexOf CleanupAction.setLastSeen (exitCleanup e)
      < List.indexOf CleanupAction.deleteStatus (exitCleanup e) ∧
    ∀ k, statusView (runCleanup uid cid conn now s ((exitCleanup e).take k)).store
        uid tq ≠ UserStatus.offline none := by
  refine ⟨rfl, ?_, ?_⟩
  · show List.indexOf CleanupAction.setLastSeen cleanupSeq
      < List.indexOf CleanupAction.deleteStatus cleanupSeq
    decide
  intro k
  obtain ⟨v, hv⟩ : ∃ v, rget s.store (statusKey uid) tq = some v := by
    cases hg : rget s.store (statusKey uid) tq
    · exact absurd hg honline
    · exact ⟨_, rfl⟩
  have hlast : rget (rset s.store (lastSeenKey uid) (isoTimestamp now) none)
      (statusKey uid) tq = some v := by
    rw [rget_rset_other _ _ _ _ _ _ (statusKey_ne_lastSeenKey uid)]
    exact hv
  rcases k with _ | _ | _ | n
  · simp [exitCleanup, cleanupSeq, runCleanup, statusView, hv]
  · simp [exitCleanup, cleanupSeq, runCleanup, applyCleanupAction, statusView, hv]
  · simp [exitCleanup, cleanupSeq, runCleanup, applyCleanupAction, statusView, hlast]
  · have hgone : rget (rdel (rset s.store (lastSeenKey uid) (isoTimestamp now) none)
        (statusKey uid)) (statusKey uid) tq = none := rget_rdel_self _ _ _
    have hseen : rget (rdel (rset s.store (lastSeenKey uid) (isoTimestamp now) none)
        (statusKey uid)) (lastSeenKey uid) tq = some (isoTimestamp now) := by
      rw [rget_rdel_other _ _ _ _ (Ne.symm (statusKey_ne_lastSeenKey uid))]
      exact rget_rset_self_persist _ _ _ _
    simp [exitCleanup, cleanupSeq, runCleanup, applyCleanupAction, statusView,
      hgone, hseen]

/-- Witness for C6: user 1's status key live at query time 30; cleanup at
time 50 for connection 10 of conversation 0, exit by client disconnect. -/
theorem cleanup_writes_last_seen_before_status_delete_witness :
    exitCleanup ExitReason.clientDisconnect = cleanupSeq ∧
    List.indexOf CleanupAction.setLastSeen (exitCleanup ExitReason.clientDisconnect)
      < List.indexOf CleanupAction.deleteStatus (exitCleanup ExitReason.clientDisconnect) ∧
    ∀ k, statusView (runCleanup 1 0 10 50
          ⟨[(0, [10])], [(statusKey 1, "online", some 60)]⟩
          ((exitCleanup ExitReason.clientDisconnect).take k)).store
        1 30 ≠ UserStatus.offline none :=
  cleanup_writes_last_seen_before_status_delete ExitReason.clientDisconnect
    1 0 10 50 30 ⟨[(0, [10])], [(statusKey 1, "online", some 60)]⟩ (by decide)

/-- C7. When the 45-second receive wait times out but the transport
stays writable, the session refreshes the presence TTL (a status key
live at that tick stays live up to 60 seconds further), pushes an
unsolicited `ping`, leaves the registry untouched and continues the
loop; if the ping send fails, the tick instead exits the loop toward
the cleanup path. -/
theorem idle_timeout_refreshes_and_pings
    (reg : Registry) (store : RStore) (uid now : Nat) (pingOk : Bool) :
    (recvTick RecvResult.timeout pingOk reg store uid now).2.2.2 = [Payload.ping] ∧
    (recvTick RecvResult.timeout pingOk reg store uid now).2.1 = reg ∧
    (∀ v, rget store (statusKey uid) now = some v →
      ∀ t, t < now + 60 →
        rget (recvTick RecvResult.timeout pingOk reg store uid now).2.2.1
          (statusKey uid) t = some v) ∧
    (pingOk = true →
      (recvTick RecvResult.timeout pingOk reg store uid now).1
        = TickOut.continueLoop) ∧
    (pingOk = false →
      (recvTick RecvResult.timeout pingOk reg store uid now).1
        = TickOut.exitLoop ExitReason.pingSendFailure) := by
  have hstore : (recvTick RecvResult.timeout pingOk reg store uid now).2.2.1
      = rexpire store (statusKey uid) now 60 := by
    cases pingOk <;> rfl
  refine ⟨?_, ?_, ?_, ?_, ?_⟩
  · cases pingOk <;> rfl
  · cases pingOk <;> rfl
  · intro v hv t ht
    rw [hstore, rexpire_of_live store _ v now 60 hv]
    exact rget_rset_self_live store _ v (now + 60) t ht
  · intro h; subst h; rfl
  · intro h; subst h; rfl

/-- Witness for C7: user 1, status key expiring at 60, timeout tick at
time 30 with a writable transport; the refreshed key is still live at
time 85 < 90, a ping is pushed, the registry is unchanged and the loop
continues. -/
theorem idle_timeout_refreshes_and_pings_witness :
    (recvTick RecvResult.timeout true regAB
        [(statusKey 1, "online", some 60)] 1 30).2.2.2 = [Payload.ping] ∧
    (recvTick RecvResult.timeout true regAB
        [(statusKey 1, "online", some 60)] 1 30).2.1 = regAB ∧
    rget (recvTick RecvResult.timeout true regAB
        [(statusKey 1, "online", some 60)] 1 30).2.2.1 (statusKey 1) 85
      = some "online" ∧
    (recvTick RecvResult.timeout true regAB
        [(statusKey 1, "online", some 60)] 1 30).1 = TickOut.continueLoop :=
  ⟨(idle_timeout_refreshes_and_pings regAB
      [(statusKey 1, "online", some 60)] 1 30 true).1,
   (idle_timeout_refreshes_and_pings regAB
      [(statusKey 1, "online", some 60)] 1 30 true).2.1,
   (idle_timeout_refreshes_and_pings regAB
      [(statusKey 1, "online", some 60)] 1 30 true).2.2.1 "online" (by decide)
      85 (by decide),
   (idle_timeout_refreshes_and_pings regAB
      [(statusKey 1, "online", some 60)] 1 30 true).2.2.2.1 rfl⟩

end AnnA
